/-
  Verification of the GrocSplit billing / ingestion core.

  Shallow embedding of the server code:
    - db/index.js        (query helpers and computeBill)
    - routes/cycles.js   (finalize, unfinalize, dinners, receipts)
    - routes/transactions.js (manual entry, patch, delete, CSV import)
    - db/migrate.js      (schema constraints that drive insert semantics)

  JavaScript numbers are modelled as rationals (Rat); all definitions are
  executable so concrete runs of the embedded code can be checked by decide.
-/
import Mathlib

namespace GrocSplit

/-! ### JS number primitives -/

/-- Model of JS Math.round: round half up (Math.round x = floor (x + 1/2)). -/
def jsRound (q : Rat) : Int :=
  let r : Rat := q + 1/2
  r.num.ediv (r.den : Int)

/-- Characters trimmed by String.prototype.trim (ASCII whitespace as used here). -/
def jsWs (c : Char) : Bool :=
  c = ' ' || c = '\t' || c = '\r' || c = '\n'

/-- Drop whitespace from both ends of a character list. -/
def trimList (l : List Char) : List Char :=
  ((l.dropWhile jsWs).reverse.dropWhile jsWs).reverse

/-- Model of JS s.trim(). -/
def jsTrim (s : String) : String :=
  String.mk (trimList s.toList)

/-- Accumulate decimal digits into a natural number. -/
def digitsToNat (l : List Char) : Nat :=
  l.foldl (fun n c => 10 * n + (c.toNat - 48)) 0

/-- Model of JS parseFloat restricted to the decimal forms occurring in CIBC
exports: optional sign, integer digits, optional fraction digits; any trailing
garbage is ignored (parseFloat parses the longest numeric prefix); none models
NaN (no digits at all). Exponents and special values are not modelled. -/
def parseJsFloat (s : String) : Option Rat :=
  let (sign, cs) : Rat × List Char :=
    match s.toList with
    | '-' :: r => (-1, r)
    | '+' :: r => (1, r)
    | r => (1, r)
  let intDigits := cs.takeWhile Char.isDigit
  let rest := cs.dropWhile Char.isDigit
  let fracDigits :=
    match rest with
    | '.' :: r2 => r2.takeWhile Char.isDigit
    | _ => []
  if intDigits = [] && fracDigits = [] then none
  else
    some (sign * ((digitsToNat intDigits : Rat) +
      (digitsToNat fracDigits : Rat) / ((10 : Rat) ^ fracDigits.length)))

/-- Model of JS amount.toFixed(2) for the non-negative amounts used in CSV
fingerprints: the amount in cents (rounded) printed with two decimals. -/
def toFixed2 (q : Rat) : String :=
  let cents := (jsRound (q * 100)).toNat
  let frac := cents % 100
  toString (cents / 100) ++ "." ++
    (if frac < 10 then "0" ++ toString frac else toString frac)

/-! ### CSV parsing (routes/transactions.js, parseCsvLine / parseCibcRow)

parseCsvLine is a while-loop over the characters of the line; it is rendered
here as a character automaton.  Mode start is the top of the outer loop (a
field begins), plain is the unquoted-field inner loop, quoted is the
RFC-4180 quoted-field inner loop, and closing is the state after reading a
quote character inside a quoted field (one character of lookahead decides
between an escaped doubled quote and the closing quote). -/

inductive CsvMode where
  | start
  | plain (acc : String)
  | quoted (acc : String)
  | closing (acc : String)

def csvAux : List Char → CsvMode → List String
  | [], .start => []
  | [], .plain acc => [acc]
  | [], .quoted acc => [acc]
  | [], .closing acc => [acc]
  | c :: cs, .start =>
    if c = '"' then csvAux cs (.quoted "")
    else if c = ',' then "" :: csvAux cs .start
    else csvAux cs (.plain (String.singleton c))
  | c :: cs, .plain acc =>
    if c = ',' then acc :: csvAux cs .start
    else csvAux cs (.plain (acc.push c))
  | c :: cs, .quoted acc =>
    if c = '"' then csvAux cs (.closing acc)
    else csvAux cs (.quoted (acc.push c))
  | c :: cs, .closing acc =>
    if c = '"' then csvAux cs (.quoted (acc.push '"'))
    else if c = ',' then acc :: csvAux cs .start
    else acc :: csvAux cs (.plain (String.singleton c))

/-- routes/transactions.js parseCsvLine. -/
def parseCsvLine (line : String) : List String :=
  csvAux line.toList .start

/-- The full-match regex on the date field in parseCibcRow. -/
def isIsoDate (s : String) : Bool :=
  match s.toList with
  | [y1, y2, y3, y4, h1, m1, m2, h2, d1, d2] =>
    y1.isDigit && y2.isDigit && y3.isDigit && y4.isDigit &&
    h1 = '-' && m1.isDigit && m2.isDigit && h2 = '-' &&
    d1.isDigit && d2.isDigit
  | _ => false

/-- The prefix-match regex used to skip header lines in the import loop. -/
def startsWithDate (s : String) : Bool :=
  match s.toList with
  | y1 :: y2 :: y3 :: y4 :: h1 :: m1 :: m2 :: h2 :: d1 :: d2 :: _ =>
    y1.isDigit && y2.isDigit && y3.isDigit && y4.isDigit &&
    h1 = '-' && m1.isDigit && m2.isDigit && h2 = '-' &&
    d1.isDigit && d2.isDigit
  | _ => false

structure CibcRow where
  date : String
  merchant : String
  amount : Rat
deriving DecidableEq, Repr

/-- routes/transactions.js parseCibcRow.  The source also reads the credit
column (fields[3]) into a local variable it never uses; an empty or zero
debit column rejects the row regardless of the credit column. -/
def parseCibcRow (line : String) : Option CibcRow :=
  match parseCsvLine line with
  | d0 :: m0 :: deb0 :: _rest =>
    let date := jsTrim d0
    let merchant := jsTrim m0
    let debit := jsTrim deb0
    if ¬ (isIsoDate date = true) then none
    else if merchant = "" then none
    else if debit = "" ∨ debit = "0" then none
    else
      match parseJsFloat debit with
      | none => none
      | some amount => if amount ≤ 0 then none else some ⟨date, merchant, amount⟩
  | _ => none

/-- Split a character list at newline characters (JS String.split). -/
def splitNl : List Char → List (List Char)
  | [] => [[]]
  | c :: cs =>
    if c = '\n' then [] :: splitNl cs
    else
      match splitNl cs with
      | [] => [[c]]
      | g :: gs => (c :: g) :: gs

/-- csv.split(newline).map(trim).filter(Boolean) from the import route; a
carriage return before the newline is removed by the trim. -/
def csvLines (csv : String) : List String :=
  ((splitNl csv.toList).map (fun l => String.mk (trimList l))).filter
    (fun x => decide (x ≠ ""))

/-! ### Data model (db/migrate.js schema) -/

structure Person where
  id : String
  name : String
  active : Bool
deriving DecidableEq, Repr

structure Cycle where
  id : String
  month_key : String
  label : String
  date_from : String
  date_to : String
  finalized : Bool
deriving DecidableEq, Repr

structure Txn where
  id : String
  cycle_id : String
  plaid_id : Option String
  date : String
  merchant : String
  amount : Rat
  source : String
  verified : Bool
  notes : Option String
deriving DecidableEq, Repr

structure DinnerEntry where
  id : String
  cycle_id : String
  person_id : String
  dinner_count : Rat
  notes : Option String
deriving DecidableEq, Repr

structure Receipt where
  id : String
  cycle_id : String
  person_id : String
  amount : Rat
  note : Option String
  date : String
deriving DecidableEq, Repr

/-- The SQLite database contents relevant to the claims. -/
structure Store where
  people : List Person
  cycles : List Cycle
  transactions : List Txn
  dinners : List DinnerEntry
  receipts : List Receipt
deriving DecidableEq, Repr

/-! ### Query helpers (db/index.js) -/

/-- cycleQueries.byId (SELECT * FROM cycles WHERE id = ?, first row). -/
def getCycle (s : Store) (cid : String) : Option Cycle :=
  s.cycles.find? (fun c => decide (c.id = cid))

/-- The ids of the rows in the transactions table. -/
def txIds (s : Store) : List String :=
  s.transactions.map (fun t => t.id)

/-- txQueries.insert: INSERT OR IGNORE.  The transactions table of
db/migrate.js has a single PRIMARY KEY on id and only a non-UNIQUE index on
plaid_id, so the insert is ignored exactly when the id already exists. -/
def txInsert (s : Store) (t : Txn) : Store :=
  if s.transactions.any (fun u => decide (u.id = t.id)) then s
  else { s with transactions := s.transactions ++ [t] }

/-- Modelled from the spec: tx.byPlaidId is called by routes/transactions.js
and routes/plaid.js but is not defined in the db layer present under src/.
Per the spec, the fingerprint search is global (not scoped to a cycle): the
first transaction whose plaid_id equals the fingerprint. -/
def txByPlaidId (s : Store) (fp : String) : Option Txn :=
  s.transactions.find? (fun t => decide (t.plaid_id = some fp))

/-- txQueries.totalForCycle (COALESCE(SUM(amount), 0)). -/
def txTotalForCycle (s : Store) (cid : String) : Rat :=
  ((s.transactions.filter (fun t => decide (t.cycle_id = cid))).map
    (fun t => t.amount)).sum

/-- dinnerQueries.byCycle: dinner entries of the cycle joined with people
(the join drops entries whose person row is missing and supplies
person_name). -/
def dinnersByCycle (s : Store) (cid : String) : List (DinnerEntry × String) :=
  (s.dinners.filter (fun d => decide (d.cycle_id = cid))).filterMap
    (fun d => (s.people.find? (fun p => decide (p.id = d.person_id))).map
      (fun p => (d, p.name)))

/-- receiptQueries.byCycle: personal receipts of the cycle joined with
people. -/
def receiptsByCycle (s : Store) (cid : String) : List Receipt :=
  (s.receipts.filter (fun r => decide (r.cycle_id = cid))).filter
    (fun r => (s.people.find? (fun p => decide (p.id = r.person_id))).isSome)

/-- cycleQueries.finalize / the modelled unfinalize both rewrite the
finalized flag of the matching cycle row. -/
def setFinalized (s : Store) (cid : String) (b : Bool) : Store :=
  { s with cycles := (s.cycles.map
      (fun c => if c.id = cid then { c with finalized := b } else c)) }

/-- dinnerQueries.upsert: INSERT ... ON CONFLICT(cycle_id, person_id) DO
UPDATE of dinner_count and notes (the UNIQUE(cycle_id, person_id) constraint
makes at most one row conflict). -/
def dinnerUpsert (s : Store) (newId cid pid : String) (w : Rat)
    (notes : Option String) : Store :=
  if s.dinners.any (fun d => decide (d.cycle_id = cid ∧ d.person_id = pid)) then
    { s with dinners := (s.dinners.map (fun d =>
        if d.cycle_id = cid ∧ d.person_id = pid then
          { d with dinner_count := w, notes := notes }
        else d)) }
  else
    { s with dinners := (s.dinners ++
        [{ id := newId, cycle_id := cid, person_id := pid,
           dinner_count := w, notes := notes }]) }

/-! ### Billing calculation (db/index.js computeBill) -/

structure BillRow where
  person_id : String
  person_name : String
  dinner_count : Rat
  pct : Rat
  owes : Rat
  paid : Rat
  balance : Rat
deriving DecidableEq, Repr

structure Bill where
  total : Rat
  totalDinners : Rat
  billRows : List BillRow
deriving DecidableEq, Repr

/-- The totalDinners reduce in computeBill. -/
def billTotalDinners (s : Store) (cid : String) : Rat :=
  ((dinnersByCycle s cid).map (fun d => d.1.dinner_count)).sum

/-- The billRows map body in computeBill, for one joined dinner row. -/
def billRowFor (s : Store) (cid : String) (d : DinnerEntry × String) : BillRow :=
  let total := txTotalForCycle s cid
  let totalDinners := billTotalDinners s cid
  let pct : Rat := if totalDinners > 0 then d.1.dinner_count / totalDinners else 0
  let owes := total * pct
  let paid := (((receiptsByCycle s cid).filter
    (fun r => decide (r.person_id = d.1.person_id))).map (fun r => r.amount)).sum
  { person_id := d.1.person_id
    person_name := d.2
    dinner_count := d.1.dinner_count
    pct := (jsRound (pct * 10000) : Rat) / 100
    owes := (jsRound (owes * 100) : Rat) / 100
    paid := (jsRound (paid * 100) : Rat) / 100
    balance := (jsRound ((owes - paid) * 100) : Rat) / 100 }

/-- db/index.js computeBill: total is the SQL SUM over the transactions of
the cycle; each joined dinner row yields one bill row. -/
def computeBill (s : Store) (cid : String) : Bill :=
  { total := txTotalForCycle s cid
    totalDinners := billTotalDinners s cid
    billRows := (dinnersByCycle s cid).map (billRowFor s cid) }

/-! ### Route handlers

Each handler is a function from the store and the request data to the HTTP
status it answers with and the store it leaves behind.  Generated uuids are
passed in explicitly (the routes call uuidv4()), and the current date is the
today argument. -/

/-- POST /api/cycles/:cycleId/transactions (manual entry).  Validation is
the JS truthiness test (!merchant || !amount): the empty merchant and the
amount zero are rejected; then 404 on a missing cycle, 409 on a finalized
cycle, otherwise the transaction is stored with the absolute amount, the
trimmed merchant, a null plaid_id, and today as the default date. -/
def addTransaction (s : Store) (cid newId : String) (date : Option String)
    (merchant : String) (amount : Rat) (source : String)
    (notes : Option String) (today : String) : Nat × Store :=
  if merchant = "" ∨ amount = 0 then (400, s)
  else
    match getCycle s cid with
    | none => (404, s)
    | some c =>
      if c.finalized then (409, s)
      else
        (201, txInsert s
          { id := newId
            cycle_id := cid
            plaid_id := none
            date := match date with
                    | some d => if d = "" then today else d
                    | none => today
            merchant := jsTrim merchant
            amount := |amount|
            source := source
            verified := false
            notes := match notes with
                     | some n => if n = "" then none else some n
                     | none => none })

/-- PATCH /api/cycles/:cycleId/transactions/:txId.  Only requires the
verified field; no cycle lookup and no finalized check appear in the
source. -/
def patchTransaction (s : Store) (txId : String) (verified : Option Bool) :
    Nat × Store :=
  match verified with
  | none => (400, s)
  | some v =>
    (200, { s with transactions := (s.transactions.map
        (fun t => if t.id = txId then { t with verified := v } else t)) })

/-- DELETE /api/cycles/:cycleId/transactions/:txId.  No cycle lookup and no
finalized check appear in the source. -/
def deleteTransaction (s : Store) (txId : String) : Nat × Store :=
  (200, { s with transactions := (s.transactions.filter
      (fun t => decide (t.id ≠ txId))) })

/-- POST /api/cycles/:id/finalize. -/
def finalizeCycle (s : Store) (cid : String) : Nat × Store :=
  match getCycle s cid with
  | none => (404, s)
  | some _ => (200, setFinalized s cid true)

/-- Modelled from the spec: POST /api/cycles/:id/unfinalize calls
cycles.unfinalize, which is not defined in the db layer present under src/;
per the spec it is the explicit Finalized to Open transition, i.e. UPDATE
cycles SET finalized = 0 WHERE id = ?. -/
def unfinalizeCycle (s : Store) (cid : String) : Nat × Store :=
  match getCycle s cid with
  | none => (404, s)
  | some _ => (200, setFinalized s cid false)

/-- One dinner entry of the PUT /api/cycles/:id/dinners body.  dinner_count
is some q when Number(entry.dinner_count) is the number q and none when it
is NaN (missing or non-numeric field). -/
structure DinnerInput where
  person_id : String
  dinner_count : Option Rat
  notes : Option String
deriving DecidableEq, Repr

/-- PUT /api/cycles/:id/dinners: bulk upsert.  Each entry stores
Number(entry.dinner_count) || 0 as the weight; no cycle lookup, no
finalized check and no sign check appear in the source. -/
def putDinners (s : Store) (cid : String) (entries : List DinnerInput)
    (ids : List String) : Nat × Store :=
  let final := entries.foldl
    (fun (acc : Store × List String) e =>
      (dinnerUpsert acc.1 (acc.2.headD "") cid e.person_id
        (e.dinner_count.getD 0)
        (match e.notes with
         | some n => if n = "" then none else some n
         | none => none),
       acc.2.tail))
    (s, ids)
  (200, final.1)

/-- POST /api/cycles/:id/receipts.  Validation is !person_id || !amount; no
finalized check appears in the source. -/
def addReceipt (s : Store) (cid newId pid : String) (amount : Rat)
    (note : Option String) (date : Option String) (today : String) :
    Nat × Store :=
  if pid = "" ∨ amount = 0 then (400, s)
  else
    (201, { s with receipts := (s.receipts ++
        [{ id := newId
           cycle_id := cid
           person_id := pid
           amount := amount
           note := match note with
                   | some n => if n = "" then none else some n
                   | none => none
           date := match date with
                   | some d => if d = "" then today else d
                   | none => today }]) })

/-- DELETE /api/cycles/:id/receipts/:receiptId.  No finalized check appears
in the source. -/
def deleteReceipt (s : Store) (rid : String) : Nat × Store :=
  (200, { s with receipts := (s.receipts.filter
      (fun r => decide (r.id ≠ rid))) })

/-! ### CSV import (routes/transactions.js POST /import-csv) -/

structure ImportResult where
  status : Nat
  added : Nat
  skipped : Nat
  errors : Nat
deriving DecidableEq, Repr

/-- The dedup fingerprint built for a parsed CSV row. -/
def fpOf (r : CibcRow) : String :=
  "csv:" ++ r.date ++ ":" ++ r.merchant ++ ":" ++ toFixed2 r.amount

/-- The transaction the import inserts for a parsed CSV row. -/
def mkCsvTxn (cid newId : String) (r : CibcRow) : Txn :=
  { id := newId
    cycle_id := cid
    plaid_id := some (fpOf r)
    date := r.date
    merchant := String.mk (r.merchant.toList.take 200)
    amount := r.amount
    source := "csv"
    verified := false
    notes := none }

/-- The loop state of the import: the store plus the three counters and the
remaining uuid supply. -/
structure ImpState where
  store : Store
  added : Nat
  skipped : Nat
  errors : Nat
  ids : List String
deriving DecidableEq, Repr

/-- One iteration of the import loop: skip non-date lines silently, count
parse failures as errors, skip lines whose fingerprint already exists, and
otherwise insert and count as added. -/
def importLine (cid : String) (σ : ImpState) (line : String) : ImpState :=
  if startsWithDate line then
    match parseCibcRow line with
    | none => { σ with errors := σ.errors + 1 }
    | some r =>
      match txByPlaidId σ.store (fpOf r) with
      | some _ => { σ with skipped := σ.skipped + 1 }
      | none =>
        { σ with
            store := txInsert σ.store (mkCsvTxn cid (σ.ids.headD "") r)
            added := σ.added + 1
            ids := σ.ids.tail }
  else σ

/-- POST /api/cycles/:cycleId/transactions/import-csv over a csv text (the
400 branch for a non-string body is outside this model). -/
def importCsv (s : Store) (cid : String) (csv : String) (ids : List String) :
    ImportResult × Store :=
  match getCycle s cid with
  | none => ({ status := 404, added := 0, skipped := 0, errors := 0 }, s)
  | some c =>
    if c.finalized then
      ({ status := 409, added := 0, skipped := 0, errors := 0 }, s)
    else
      let σ := (csvLines csv).foldl (importLine cid)
        { store := s, added := 0, skipped := 0, errors := 0, ids := ids }
      ({ status := 200, added := σ.added, skipped := σ.skipped,
         errors := σ.errors }, σ.store)

/-! ### Definitions used to state the claims -/

/-- Written from the spec for comparison: the sum of all PersonalPayment
amounts recorded for the cycle. -/
def specPersonalPaymentTotal (s : Store) (cid : String) : Rat :=
  ((s.receipts.filter (fun r => decide (r.cycle_id = cid))).map
    (fun r => r.amount)).sum

/-- The stored dinner weight of a (cycle, person) pair. -/
def dinnerWeight (s : Store) (cid pid : String) : Option Rat :=
  (s.dinners.find? (fun d => decide (d.cycle_id = cid ∧ d.person_id = pid))).map
    (fun d => d.dinner_count)

/-- Some transaction in the store carries the fingerprint. -/
def hasFp (s : Store) (fp : String) : Prop :=
  ∃ t ∈ s.transactions, t.plaid_id = some fp

/-- Lines the import loop counts via the skip/add path (they start with a
date and parse). -/
def countOk (L : List String) : Nat :=
  L.countP (fun l => startsWithDate l && (parseCibcRow l).isSome)

/-- Lines the import loop counts as errors (they start with a date but do
not parse). -/
def countErr (L : List String) : Nat :=
  L.countP (fun l => startsWithDate l && (parseCibcRow l).isNone)

/-- A usable uuid supply: pairwise distinct and absent from the store. -/
def goodIds (s : Store) (ids : List String) : Prop :=
  ids.Nodup ∧ ∀ i ∈ ids, i ∉ txIds s

/-! ### Concrete fixtures -/

def personA : Person :=
  { id := "p1", name := "Alex", active := true }

def openCycle : Cycle :=
  { id := "c", month_key := "2025-01", label := "January 2025",
    date_from := "2025-01-01", date_to := "2025-01-31", finalized := false }

def closedCycle : Cycle :=
  { openCycle with finalized := true }

/-- An open cycle with one member and no ledger rows. -/
def openStore : Store :=
  { people := [personA], cycles := [openCycle], transactions := [],
    dinners := [], receipts := [] }

/-- Fixture for claim C1: no transactions, one personal receipt of 10. -/
def storeC1 : Store :=
  { openStore with receipts :=
      [{ id := "r1", cycle_id := "c", person_id := "p1", amount := 10,
         note := none, date := "2025-01-05" }] }

def txFix : Txn :=
  { id := "t1", cycle_id := "c", plaid_id := none, date := "2025-01-02",
    merchant := "STORE", amount := 7, source := "receipt", verified := false,
    notes := none }

/-- Fixture for claim C2: a finalized cycle that already owns a transaction,
a dinner entry and a personal receipt. -/
def storeC2 : Store :=
  { people := [personA], cycles := [closedCycle], transactions := [txFix],
    dinners := [{ id := "d1", cycle_id := "c", person_id := "p1",
                  dinner_count := 2, notes := none }],
    receipts := [{ id := "r1", cycle_id := "c", person_id := "p1",
                   amount := 3, note := none, date := "2025-01-05" }] }

/-- A CSV text whose two data rows carry the same dedup fingerprint. -/
def dupCsv : String :=
  "2025-01-02,STORE,5.00,,card\n2025-01-02,STORE,5.00,,card"

/-- A credit/refund row: debit column empty, credit column populated. -/
def creditLine : String :=
  "2025-01-02,STORE,,12.50,card"

def pharmaLine : String :=
  "2025-12-29,\"PHARMASAVE 115 VICTORIA, BC\",51.20,,4500********6473"

/-- Fixture for claim C6: one zero-weight dinner entry. -/
def storeC6 : Store :=
  { openStore with dinners :=
      [{ id := "d1", cycle_id := "c", person_id := "p1",
         dinner_count := 0, notes := none }] }

def txP1 : Txn :=
  { id := "ta", cycle_id := "c", plaid_id := some "plaid-xyz",
    date := "2025-01-02", merchant := "STORE A", amount := 5,
    source := "visa", verified := false, notes := none }

def txP2 : Txn :=
  { id := "tb", cycle_id := "c", plaid_id := some "plaid-xyz",
    date := "2025-01-03", merchant := "STORE B", amount := 6,
    source := "visa", verified := false, notes := none }

/-! ### Theorems -/

attribute [local semireducible] Rat.add Rat.mul Rat.sub Rat.inv Rat.ofScientific

/-- find? commutes with a map that does not change the tested predicate. -/
theorem find?_map_pres {α : Type} (f : α → α) (p : α → Bool)
    (hp : ∀ a, p (f a) = p a) :
    ∀ l : List α, (l.map f).find? p = (l.find? p).map f := by
  intro l
  induction l with
  | nil => rfl
  | cons a t ih =>
    by_cases h : p a = true
    · rw [List.map_cons, List.find?_cons_of_pos _ ((hp a).trans h),
        List.find?_cons_of_pos _ h]
      rfl
    · rw [List.map_cons,
        List.find?_cons_of_neg _ (by rw [hp a]; exact Bool.not_eq_true _ ▸ h),
        List.find?_cons_of_neg _ h, ih]

/-- find? skips a prefix in which nothing matches. -/
theorem find?_append_of_none {α : Type} (p : α → Bool) (l₁ l₂ : List α)
    (h : l₁.find? p = none) : (l₁ ++ l₂).find? p = l₂.find? p := by
  induction l₁ with
  | nil => rfl
  | cons a t ih =>
    cases hpa : p a with
    | false =>
      rw [List.find?_cons_of_neg _ (by simp [hpa])] at h
      rw [List.cons_append, List.find?_cons_of_neg _ (by simp [hpa])]
      exact ih h
    | true => rw [List.find?_cons_of_pos _ hpa] at h; cases h

/-- Rewriting the finalized flag leaves the cycle found by id in place,
with its flag rewritten. -/
theorem getCycle_setFinalized (s : Store) (cid : String) (b : Bool) :
    getCycle (setFinalized s cid b) cid =
      (getCycle s cid).map
        (fun c => if c.id = cid then { c with finalized := b } else c) := by
  unfold getCycle setFinalized
  exact find?_map_pres _ _
    (fun c => by by_cases h : c.id = cid <;> simp [h]) s.cycles

/-- Rewriting the finalized flag to the same value twice is the same as
rewriting it once. -/
theorem setFinalized_setFinalized (s : Store) (cid : String) (b : Bool) :
    setFinalized (setFinalized s cid b) cid b = setFinalized s cid b := by
  unfold setFinalized
  congr 1
  rw [List.map_map]
  apply List.map_congr_left
  intro c _
  by_cases h : c.id = cid <;> simp [h]

/-- Claim C4.  Finalize answers 200; finalizing again is a no-op success;
while finalized a manual transaction add is refused with 409; unfinalize
answers 200; unfinalizing again is a no-op success; and after the
finalize/unfinalize round trip a manual transaction add succeeds with 201.
The unfinalize query is modelled from the spec (it is called by
routes/cycles.js but missing from the db layer under src/). -/
theorem C4_finalize_unfinalize_cycle (s : Store) (cid newId merchant : String)
    (amount : Rat) (c : Cycle) (hc : getCycle s cid = some c)
    (hm : merchant ≠ "") (ha : amount ≠ 0) :
    (finalizeCycle s cid).1 = 200 ∧
    finalizeCycle (finalizeCycle s cid).2 cid = (200, (finalizeCycle s cid).2) ∧
    (addTransaction (finalizeCycle s cid).2 cid newId none merchant amount
      "receipt" none "2025-01-01").1 = 409 ∧
    (unfinalizeCycle (finalizeCycle s cid).2 cid).1 = 200 ∧
    unfinalizeCycle (unfinalizeCycle (finalizeCycle s cid).2 cid).2 cid =
      (200, (unfinalizeCycle (finalizeCycle s cid).2 cid).2) ∧
    (addTransaction (unfinalizeCycle (finalizeCycle s cid).2 cid).2 cid newId
      none merchant amount "receipt" none "2025-01-01").1 = 201 := by
  have hid : c.id = cid := by
    have hc' : s.cycles.find? (fun x => decide (x.id = cid)) = some c := hc
    have hp' := List.find?_some hc'
    exact of_decide_eq_true hp'
  have hguard : ¬(merchant = "" ∨ amount = 0) := by
    rintro (h | h)
    · exact hm h
    · exact ha h
  have e1 : finalizeCycle s cid = (200, setFinalized s cid true) := by
    unfold finalizeCycle
    rw [hc]
  have hgc1 : getCycle (setFinalized s cid true) cid =
      some { c with finalized := true } := by
    rw [getCycle_setFinalized, hc]
    simp [hid]
  have e2 : finalizeCycle (setFinalized s cid true) cid =
      (200, setFinalized s cid true) := by
    unfold finalizeCycle
    rw [hgc1, setFinalized_setFinalized]
  have e3 : unfinalizeCycle (setFinalized s cid true) cid =
      (200, setFinalized (setFinalized s cid true) cid false) := by
    unfold unfinalizeCycle
    rw [hgc1]
  have hgc2 : getCycle (setFinalized (setFinalized s cid true) cid false) cid =
      some { c with finalized := false } := by
    rw [getCycle_setFinalized, hgc1]
    simp [hid]
  have e4 : unfinalizeCycle
      (setFinalized (setFinalized s cid true) cid false) cid =
      (200, setFinalized (setFinalized s cid true) cid false) := by
    unfold unfinalizeCycle
    rw [hgc2, setFinalized_setFinalized]
  have e5 : (addTransaction (setFinalized s cid true) cid newId none merchant
      amount "receipt" none "2025-01-01").1 = 409 := by
    unfold addTransaction
    rw [if_neg hguard, hgc1]
    simp
  have e6 : (addTransaction
      (setFinalized (setFinalized s cid true) cid false) cid newId none
      merchant amount "receipt" none "2025-01-01").1 = 201 := by
    unfold addTransaction
    rw [if_neg hguard, hgc2]
    simp
  rw [e1]
  exact ⟨rfl, e2, e5, by rw [e3], by rw [e3, e4], by rw [e3]; exact e6⟩

/-- Witness for C4 on the concrete open cycle of openStore. -/
theorem C4_witness :
    (finalizeCycle openStore "c").1 = 200 ∧
    finalizeCycle (finalizeCycle openStore "c").2 "c" =
      (200, (finalizeCycle openStore "c").2) ∧
    (addTransaction (finalizeCycle openStore "c").2 "c" "t9" none "STORE" 5
      "receipt" none "2025-01-01").1 = 409 ∧
    (unfinalizeCycle (finalizeCycle openStore "c").2 "c").1 = 200 ∧
    unfinalizeCycle (unfinalizeCycle (finalizeCycle openStore "c").2 "c").2
      "c" = (200, (unfinalizeCycle (finalizeCycle openStore "c").2 "c").2) ∧
    (addTransaction (unfinalizeCycle (finalizeCycle openStore "c").2 "c").2
      "c" "t9" none "STORE" 5 "receipt" none "2025-01-01").1 = 201 :=
  C4_finalize_unfinalize_cycle openStore "c" "t9" "STORE" 5 openCycle
    (by decide) (by decide) (by decide)

/-- jsRound of zero is zero. -/
theorem jsRound_zero : jsRound 0 = 0 := by decide

/-- Claim C6.  When the cycle's total consumption weight is zero,
computeBill still returns one row per joined consumption entry and every
row has share (pct) 0 and owed (owes) 0; the guard totalDinners greater
than zero replaces the division, so no division by zero is performed. -/
theorem C6_zero_weight_bill (s : Store) (cid : String)
    (h : (computeBill s cid).totalDinners = 0) :
    (computeBill s cid).billRows.length = (dinnersByCycle s cid).length ∧
    ∀ row ∈ (computeBill s cid).billRows, row.pct = 0 ∧ row.owes = 0 := by
  have h0 : billTotalDinners s cid = 0 := h
  constructor
  · simp [computeBill]
  · intro row hrow
    simp only [computeBill] at hrow
    obtain ⟨d, _, rfl⟩ := List.mem_map.mp hrow
    unfold billRowFor
    rw [h0]
    norm_num [jsRound_zero]

/-- Witness for C6: the zero-weight store has its single row zeroed. -/
theorem C6_witness :
    (computeBill storeC6 "c").billRows.length =
      (dinnersByCycle storeC6 "c").length ∧
    ∀ row ∈ (computeBill storeC6 "c").billRows,
      row.pct = 0 ∧ row.owes = 0 :=
  C6_zero_weight_bill storeC6 "c" (by decide)

/-- Claim C8, amended.  The manual-entry validation rejects with 400, and
mutates nothing, exactly when the merchant is empty or the amount equals
zero (JS truthiness); a negative amount is not rejected (see the
counterexample, which shows it stored as its absolute value). -/
theorem C8_manual_entry_validation (s : Store) (cid newId : String)
    (date : Option String) (merchant : String) (amount : Rat) (source : String)
    (notes : Option String) (today : String) :
    ((addTransaction s cid newId date merchant amount source notes today).1 =
        400 ↔ (merchant = "" ∨ amount = 0)) ∧
    ((merchant = "" ∨ amount = 0) →
      addTransaction s cid newId date merchant amount source notes today =
        (400, s)) := by
  refine ⟨⟨fun h => ?_, fun h => by unfold addTransaction; rw [if_pos h]⟩,
    fun h => by unfold addTransaction; rw [if_pos h]⟩
  by_contra hng
  unfold addTransaction at h
  rw [if_neg hng] at h
  cases hg : getCycle s cid with
  | none => rw [hg] at h; simp at h
  | some c =>
    rw [hg] at h
    by_cases hf : c.finalized <;> simp [hf] at h

/-- Witness for C8: the empty merchant is refused and the store kept. -/
theorem C8_witness :
    addTransaction openStore "c" "t9" none "" 5 "receipt" none "2025-01-05" =
      (400, openStore) :=
  (C8_manual_entry_validation openStore "c" "t9" none "" 5 "receipt" none
    "2025-01-05").2 (Or.inl rfl)

/-- Claim C9.  The transactions table deduplicates only on the primary key:
two inserts with distinct fresh ids and the same non-null plaid_id both
land in the store and coexist, so at-most-once ingestion rests entirely on
the pre-insert fingerprint lookup. -/
theorem C9_plaid_id_not_unique (s : Store) (t1 t2 : Txn) (fp : String)
    (h1 : t1.plaid_id = some fp) (h2 : t2.plaid_id = some fp)
    (hid : t1.id ≠ t2.id) (hf1 : t1.id ∉ txIds s) (hf2 : t2.id ∉ txIds s) :
    t1 ∈ (txInsert (txInsert s t1) t2).transactions ∧
    t2 ∈ (txInsert (txInsert s t1) t2).transactions := by
  have hin : ∀ (u1 : Txn) (l : List Txn), u1.id ∉ l.map (fun t => t.id) →
      (l.any (fun u => decide (u.id = u1.id))) = false := by
    intro u1 l hl
    rw [List.any_eq_false]
    intro u hu hud
    exact hl (List.mem_map.mpr ⟨u, hu, of_decide_eq_true hud⟩)
  have e1 : txInsert s t1 = { s with transactions := s.transactions ++ [t1] } := by
    unfold txInsert
    rw [if_neg]
    rw [hin t1 s.transactions hf1]
    simp
  have e2 : txInsert { s with transactions := s.transactions ++ [t1] } t2 =
      { s with transactions := (s.transactions ++ [t1]) ++ [t2] } := by
    unfold txInsert
    rw [if_neg]
    rw [hin t2 (s.transactions ++ [t1]) ?_]
    · simp
    · rw [List.map_append, List.mem_append]
      rintro (h | h)
      · exact hf2 h
      · simp at h
        exact hid h.symm
  rw [e1, e2]
  constructor
  · simp
  · simp

/-- Witness for C9 with two concrete transactions sharing plaid-xyz. -/
theorem C9_witness :
    txP1 ∈ (txInsert (txInsert openStore txP1) txP2).transactions ∧
    txP2 ∈ (txInsert (txInsert openStore txP1) txP2).transactions :=
  C9_plaid_id_not_unique openStore txP1 txP2 "plaid-xyz" (by decide)
    (by decide) (by decide) (by decide) (by decide)

/-- The dinner upsert always leaves the (cycle, person) pair holding the
given weight, whether it updated the conflicting row or inserted a new
one. -/
theorem dinnerWeight_upsert (s : Store) (newId cid pid : String) (w : Rat)
    (notes : Option String) :
    dinnerWeight (dinnerUpsert s newId cid pid w notes) cid pid = some w := by
  unfold dinnerUpsert dinnerWeight
  by_cases hex : s.dinners.any
      (fun d => decide (d.cycle_id = cid ∧ d.person_id = pid)) = true
  · rw [if_pos hex]
    obtain ⟨d₀, hd₀, hpd₀⟩ := List.any_eq_true.mp hex
    have hfind : s.dinners.find?
        (fun d => decide (d.cycle_id = cid ∧ d.person_id = pid)) ≠ none := by
      intro hn
      exact (List.find?_eq_none.mp hn) d₀ hd₀ hpd₀
    obtain ⟨d₁, hd₁⟩ := Option.ne_none_iff_exists'.mp hfind
    have hp₁ := List.find?_some hd₁
    have hcond : d₁.cycle_id = cid ∧ d₁.person_id = pid :=
      of_decide_eq_true hp₁
    rw [find?_map_pres _ _ ?hp, hd₁]
    case hp =>
      intro d
      by_cases hd : d.cycle_id = cid ∧ d.person_id = pid <;> simp [hd]
    simp [if_pos hcond]
  · rw [if_neg hex]
    have hnone : s.dinners.find?
        (fun d => decide (d.cycle_id = cid ∧ d.person_id = pid)) = none := by
      rw [List.find?_eq_none]
      intro d hd hpd
      exact hex (List.any_eq_true.mpr ⟨d, hd, hpd⟩)
    rw [find?_append_of_none _ _ _ hnone]
    simp

/-- Claim C10.  The bulk dinner upsert never rejects an entry: it always
answers 200, and the stored weight of the upserted (cycle, person) pair is
Number(dinner_count) || 0, i.e. 0 when dinner_count is missing or
non-numeric (none) and the unchanged numeric value otherwise, including
negative values (no non-negativity check exists). -/
theorem C10_dinner_upsert_weights (s : Store) (cid : String)
    (entries : List DinnerInput) (e : DinnerInput) (ids ids2 : List String) :
    (putDinners s cid entries ids).1 = 200 ∧
    dinnerWeight (putDinners s cid [e] ids2).2 cid e.person_id =
      some (e.dinner_count.getD 0) := by
  constructor
  · rfl
  · exact dinnerWeight_upsert s (ids2.headD "") cid e.person_id
      (e.dinner_count.getD 0) _

/-- Claim C1.  The claim states that the total returned by computeBill
equals the sum of the cycle's transaction amounts plus the sum of its
personal-payment amounts.  On a cycle with no transactions and a single
personal receipt of 10, computeBill returns total 0 while that sum is 10:
computeBill only sums the transactions table and never adds the personal
receipts, contradicting the repository's own documented billing formula. -/
theorem C1_total_omits_personal_payments :
    (computeBill storeC1 "c").total = 0 ∧
    txTotalForCycle storeC1 "c" + specPersonalPaymentTotal storeC1 "c" = 10 ∧
    (computeBill storeC1 "c").total ≠
      txTotalForCycle storeC1 "c" + specPersonalPaymentTotal storeC1 "c" := by
  decide

/-- Claim C2.  The claim states that every mutating operation on a
finalized cycle's transactions, consumption entries and personal payments
is rejected with a 409 and leaves the store unchanged.  On the finalized
cycle of storeC2, deleting a transaction, toggling verified, adding a
personal receipt and bulk-upserting dinner counts all succeed and mutate
the store (only the manual transaction add and the CSV import check the
finalized flag), while reads (computeBill) also still succeed. -/
theorem C2_finalized_gate_missing :
    (deleteTransaction storeC2 "t1").1 = 200 ∧
    (deleteTransaction storeC2 "t1").2.transactions = [] ∧
    (patchTransaction storeC2 "t1" (some true)).1 = 200 ∧
    (patchTransaction storeC2 "t1" (some true)).2.transactions ≠
      storeC2.transactions ∧
    (addReceipt storeC2 "c" "r2" "p1" 5 none (some "2025-01-06")
      "2025-01-06").1 = 201 ∧
    ((addReceipt storeC2 "c" "r2" "p1" 5 none (some "2025-01-06")
      "2025-01-06").2.receipts.length = 2) ∧
    (putDinners storeC2 "c"
      [{ person_id := "p1", dinner_count := some 4, notes := none }]
      ["d2"]).1 = 200 ∧
    dinnerWeight (putDinners storeC2 "c"
      [{ person_id := "p1", dinner_count := some 4, notes := none }]
      ["d2"]).2 "c" "p1" = some 4 ∧
    (computeBill storeC2 "c").total = 7 := by
  decide

/-- Claim C7.  The CSV row parser un-escapes doubled quotes inside quoted
fields, and the given CIBC row parses to date 2025-12-29, the merchant
PHARMASAVE 115 VICTORIA, BC with its embedded comma preserved, and the
amount 51.20 (the rational 256/5). -/
theorem C7_csv_quoting :
    parseCsvLine pharmaLine =
      ["2025-12-29", "PHARMASAVE 115 VICTORIA, BC", "51.20", "",
       "4500********6473"] ∧
    parseCibcRow pharmaLine =
      some { date := "2025-12-29", merchant := "PHARMASAVE 115 VICTORIA, BC",
             amount := 256/5 } ∧
    parseCsvLine "\"AB\"\"C\",1" = ["AB\"C", "1"] := by
  decide

/-- Claim C3, counterexample.  The claim demands, for every CSV text, that
re-importing it yields skipped equal to the first call's added.  For a text
whose two rows carry the same fingerprint, the first import adds 1 and
skips 1, and the second import skips 2, which differs from the first
call's added. -/
theorem C3_counterexample :
    (importCsv openStore "c" dupCsv ["u1", "u2"]).1.added = 1 ∧
    (importCsv (importCsv openStore "c" dupCsv ["u1", "u2"]).2 "c" dupCsv
      ["u3", "u4"]).1.added = 0 ∧
    (importCsv (importCsv openStore "c" dupCsv ["u1", "u2"]).2 "c" dupCsv
      ["u3", "u4"]).1.skipped = 2 ∧
    (importCsv (importCsv openStore "c" dupCsv ["u1", "u2"]).2 "c" dupCsv
      ["u3", "u4"]).1.skipped ≠
      (importCsv openStore "c" dupCsv ["u1", "u2"]).1.added := by
  decide

/-- Claim C5, counterexample.  The claim states that a row with a valid
date, populated credit and empty debit is skipped without incrementing the
errors counter; importing exactly such a row yields errors = 1 (and is not
counted in skipped). -/
theorem C5_counterexample :
    (importCsv openStore "c" creditLine []).1.errors = 1 ∧
    (importCsv openStore "c" creditLine []).1.added = 0 ∧
    (importCsv openStore "c" creditLine []).1.skipped = 0 := by
  decide

/-- Claim C8, counterexample.  The claim states that a manual entry with a
non-positive amount is rejected and no state is mutated; a request with
amount -5 passes the truthiness validation, answers 201 and inserts a
transaction storing the absolute value 5. -/
theorem C8_counterexample :
    (addTransaction openStore "c" "t9" none "STORE" (-5) "receipt" none
      "2025-01-05").1 = 201 ∧
    (addTransaction openStore "c" "t9" none "STORE" (-5) "receipt" none
      "2025-01-05").2.transactions.map (fun t => t.amount) = [5] ∧
    (addTransaction openStore "c" "t9" none "STORE" (-5) "receipt" none
      "2025-01-05").2 ≠ openStore := by
  decide

/-! ### Lemmas about one import-loop iteration -/

theorem txInsert_cycles (s : Store) (t : Txn) :
    (txInsert s t).cycles = s.cycles := by
  unfold txInsert
  split <;> rfl

theorem txInsert_mem (s : Store) (t u : Txn) (h : u ∈ s.transactions) :
    u ∈ (txInsert s t).transactions := by
  unfold txInsert
  split
  · exact h
  · exact List.mem_append_left _ h

/-- An insert with an id absent from the table really appends its row. -/
theorem txInsert_of_fresh (s : Store) (t : Txn) (h : t.id ∉ txIds s) :
    txInsert s t = { s with transactions := s.transactions ++ [t] } := by
  unfold txInsert
  rw [if_neg]
  intro hany
  obtain ⟨u, hu, hud⟩ := List.any_eq_true.mp hany
  exact h (List.mem_map.mpr ⟨u, hu, of_decide_eq_true hud⟩)

theorem txIds_append (s : Store) (t : Txn) :
    txIds { s with transactions := s.transactions ++ [t] } =
      txIds s ++ [t.id] := by
  simp [txIds]

theorem hasFp_txInsert (s : Store) (t : Txn) (fp : String) (h : hasFp s fp) :
    hasFp (txInsert s t) fp := by
  obtain ⟨u, hu, hufp⟩ := h
  exact ⟨u, txInsert_mem s t u hu, hufp⟩

theorem hasFp_of_find (s : Store) (fp : String) (t : Txn)
    (h : txByPlaidId s fp = some t) : hasFp s fp := by
  unfold txByPlaidId at h
  have h1 := List.find?_some h
  exact ⟨t, List.mem_of_find?_eq_some h, of_decide_eq_true h1⟩

theorem find_of_hasFp (s : Store) (fp : String) (h : hasFp s fp) :
    ∃ t, txByPlaidId s fp = some t := by
  cases hb : txByPlaidId s fp with
  | some t => exact ⟨t, rfl⟩
  | none =>
    obtain ⟨u, hu, hufp⟩ := h
    unfold txByPlaidId at hb
    exact absurd (by simp [hufp]) (List.find?_eq_none.mp hb u hu)

theorem importLine_of_not_date (cid : String) (σ : ImpState) (line : String)
    (h : startsWithDate line = false) : importLine cid σ line = σ := by
  unfold importLine
  rw [if_neg (by simp [h])]

theorem importLine_of_err (cid : String) (σ : ImpState) (line : String)
    (h : startsWithDate line = true) (hp : parseCibcRow line = none) :
    importLine cid σ line = { σ with errors := σ.errors + 1 } := by
  unfold importLine
  rw [if_pos h, hp]

theorem importLine_of_skip (cid : String) (σ : ImpState) (line : String)
    (r : CibcRow) (t : Txn) (h : startsWithDate line = true)
    (hp : parseCibcRow line = some r)
    (hb : txByPlaidId σ.store (fpOf r) = some t) :
    importLine cid σ line = { σ with skipped := σ.skipped + 1 } := by
  unfold importLine
  rw [if_pos h, hp]
  simp only [hb]

theorem importLine_of_add (cid : String) (σ : ImpState) (line : String)
    (r : CibcRow) (h : startsWithDate line = true)
    (hp : parseCibcRow line = some r)
    (hb : txByPlaidId σ.store (fpOf r) = none) :
    importLine cid σ line =
      { σ with store := txInsert σ.store (mkCsvTxn cid (σ.ids.headD "") r),
               added := σ.added + 1, ids := σ.ids.tail } := by
  unfold importLine
  rw [if_pos h, hp]
  simp only [hb]

theorem countOk_cons (line : String) (L : List String) :
    countOk (line :: L) =
      countOk L +
        (if startsWithDate line && (parseCibcRow line).isSome then 1 else 0) :=
  List.countP_cons _ _ _

theorem countErr_cons (line : String) (L : List String) :
    countErr (line :: L) =
      countErr L +
        (if startsWithDate line && (parseCibcRow line).isNone then 1 else 0) :=
  List.countP_cons _ _ _

/-! ### The two import passes -/

/-- First pass over the lines: cycles are untouched, fingerprints only
accumulate, every line that parses ends with its fingerprint present
(thanks to the fresh uuid supply), and the counters satisfy
added + skipped = countOk and errors = countErr. -/
theorem importFold_first (cid : String) :
    ∀ (L : List String) (σ : ImpState),
      σ.ids.Nodup → (∀ i ∈ σ.ids, i ∉ txIds σ.store) →
      L.length ≤ σ.ids.length →
      ((L.foldl (importLine cid) σ).store.cycles = σ.store.cycles) ∧
      (∀ fp, hasFp σ.store fp →
        hasFp (L.foldl (importLine cid) σ).store fp) ∧
      (∀ line ∈ L, ∀ r, startsWithDate line = true →
        parseCibcRow line = some r →
        hasFp (L.foldl (importLine cid) σ).store (fpOf r)) ∧
      ((L.foldl (importLine cid) σ).added +
          (L.foldl (importLine cid) σ).skipped =
        σ.added + σ.skipped + countOk L) ∧
      ((L.foldl (importLine cid) σ).errors = σ.errors + countErr L) := by
  intro L
  induction L with
  | nil =>
    intro σ _ _ _
    refine ⟨rfl, fun _ h => h, by simp, by simp [countOk], by simp [countErr]⟩
  | cons line L ih =>
    intro σ hnd hfresh hlen
    rw [List.length_cons] at hlen
    cases hsd : startsWithDate line with
    | false =>
      rw [List.foldl_cons, importLine_of_not_date cid σ line hsd]
      obtain ⟨ic, imono, ifp, icnt, ierr⟩ :=
        ih σ hnd hfresh (le_trans (Nat.le_succ _) hlen)
      refine ⟨ic, imono, ?_, ?_, ?_⟩
      · intro l hl r hr hpr
        rcases List.mem_cons.mp hl with rfl | hl'
        · rw [hsd] at hr; cases hr
        · exact ifp l hl' r hr hpr
      · rw [icnt, countOk_cons]; simp [hsd]
      · rw [ierr, countErr_cons]; simp [hsd]
    | true =>
      cases hp : parseCibcRow line with
      | none =>
        rw [List.foldl_cons, importLine_of_err cid σ line hsd hp]
        obtain ⟨ic, imono, ifp, icnt, ierr⟩ :=
          ih { σ with errors := σ.errors + 1 } hnd hfresh
            (le_trans (Nat.le_succ _) hlen)
        refine ⟨ic, imono, ?_, ?_, ?_⟩
        · intro l hl r hr hpr
          rcases List.mem_cons.mp hl with rfl | hl'
          · rw [hpr] at hp; cases hp
          · exact ifp l hl' r hr hpr
        · rw [icnt, countOk_cons]; simp [hsd, hp]
        · rw [ierr, countErr_cons]; simp [hsd, hp]; omega
      | some r =>
        cases hb : txByPlaidId σ.store (fpOf r) with
        | some t =>
          rw [List.foldl_cons, importLine_of_skip cid σ line r t hsd hp hb]
          obtain ⟨ic, imono, ifp, icnt, ierr⟩ :=
            ih { σ with skipped := σ.skipped + 1 } hnd hfresh
              (le_trans (Nat.le_succ _) hlen)
          refine ⟨ic, imono, ?_, ?_, ?_⟩
          · intro l hl r' hr hpr
            rcases List.mem_cons.mp hl with rfl | hl'
            · rw [hpr] at hp
              cases hp
              exact imono _ (hasFp_of_find σ.store _ t hb)
            · exact ifp l hl' r' hr hpr
          · rw [icnt, countOk_cons]; simp [hsd, hp]; omega
          · rw [ierr, countErr_cons]; simp [hsd, hp]
        | none =>
          cases hids : σ.ids with
          | nil => rw [hids] at hlen; simp at hlen
          | cons i0 tl =>
            rw [List.foldl_cons, importLine_of_add cid σ line r hsd hp hb,
              hids]
            simp only [List.headD_cons, List.tail_cons]
            have hfr0 : i0 ∉ txIds σ.store :=
              hfresh i0 (hids ▸ List.mem_cons_self i0 tl)
            have hins : txInsert σ.store (mkCsvTxn cid i0 r)
                = { σ.store with transactions :=
                    σ.store.transactions ++ [mkCsvTxn cid i0 r] } :=
              txInsert_of_fresh σ.store _ hfr0
            have hndtl : tl.Nodup := (List.nodup_cons.mp (hids ▸ hnd)).2
            have hi0tl : i0 ∉ tl := (List.nodup_cons.mp (hids ▸ hnd)).1
            have hfreshtl : ∀ i ∈ tl,
                i ∉ txIds { σ.store with transactions :=
                  σ.store.transactions ++ [mkCsvTxn cid i0 r] } := by
              intro i hi
              rw [txIds_append]
              rw [List.mem_append]
              rintro (h' | h')
              · exact hfresh i (hids ▸ List.mem_cons_of_mem i0 hi) h'
              · simp [mkCsvTxn] at h'
                exact hi0tl (h' ▸ hi)
            have hlentl : L.length ≤ tl.length := by
              rw [hids] at hlen
              simpa using hlen
            obtain ⟨ic, imono, ifp, icnt, ierr⟩ :=
              ih { σ with
                    store := { σ.store with transactions :=
                      σ.store.transactions ++ [mkCsvTxn cid i0 r] }
                    added := σ.added + 1
                    ids := tl } hndtl hfreshtl hlentl
            rw [hins]
            refine ⟨?_, ?_, ?_, ?_, ?_⟩
            · rw [ic]
            · intro fp hfp
              apply imono
              obtain ⟨u, hu, hufp⟩ := hfp
              exact ⟨u, List.mem_append_left _ hu, hufp⟩
            · intro l hl r' hr hpr
              rcases List.mem_cons.mp hl with rfl | hl'
              · rw [hpr] at hp
                cases hp
                apply imono
                exact ⟨mkCsvTxn cid i0 r,
                  List.mem_append_right _ (List.mem_singleton_self _), rfl⟩
              · exact ifp l hl' r' hr hpr
            · rw [icnt, countOk_cons]; simp [hsd, hp]; omega
            · rw [ierr, countErr_cons]; simp [hsd, hp]

/-- Second pass: when every line that parses already has its fingerprint in
the store, the fold only bumps the skip and error counters and leaves the
store, the added counter and the uuid supply untouched. -/
theorem importFold_second (cid : String) :
    ∀ (L : List String) (σ : ImpState),
      (∀ line ∈ L, ∀ r, startsWithDate line = true →
        parseCibcRow line = some r → hasFp σ.store (fpOf r)) →
      L.foldl (importLine cid) σ =
        { σ with skipped := σ.skipped + countOk L,
                 errors := σ.errors + countErr L } := by
  intro L
  induction L with
  | nil => intro σ _; simp [countOk, countErr]
  | cons line L ih =>
    intro σ hfp
    cases hsd : startsWithDate line with
    | false =>
      rw [List.foldl_cons, importLine_of_not_date cid σ line hsd,
        ih σ (fun l hl => hfp l (List.mem_cons_of_mem line hl))]
      rw [countOk_cons, countErr_cons]
      simp [hsd]
    | true =>
      cases hp : parseCibcRow line with
      | none =>
        rw [List.foldl_cons, importLine_of_err cid σ line hsd hp,
          ih { σ with errors := σ.errors + 1 }
            (fun l hl => hfp l (List.mem_cons_of_mem line hl))]
        rw [countOk_cons, countErr_cons]
        simp [hsd, hp]
        omega
      | some r =>
        obtain ⟨t, hb⟩ := find_of_hasFp σ.store (fpOf r)
          (hfp line (List.mem_cons_self line L) r hsd hp)
        rw [List.foldl_cons, importLine_of_skip cid σ line r t hsd hp hb,
          ih { σ with skipped := σ.skipped + 1 }
            (fun l hl => hfp l (List.mem_cons_of_mem line hl))]
        rw [countOk_cons, countErr_cons]
        simp [hsd, hp]
        omega

/-- getCycle only looks at the cycles table. -/
theorem getCycle_congr (s1 s2 : Store) (cid : String)
    (h : s1.cycles = s2.cycles) : getCycle s1 cid = getCycle s2 cid := by
  unfold getCycle
  rw [h]

/-- Claim C3, amended.  Importing a CSV text against a non-finalized cycle
with a usable uuid supply and then importing the identical text again
yields added = 0 on the second call, an unchanged store, unchanged errors,
and skipped equal to the first call's added PLUS the first call's skipped
(not the added count alone: rows duplicated inside the text, or rows whose
fingerprint was already present, are skipped on the first pass yet counted
again on the second). -/
theorem C3_reimport_counts (s : Store) (cid : String) (c : Cycle)
    (csv : String) (ids1 ids2 : List String) (hc : getCycle s cid = some c)
    (hf : c.finalized = false) (hnd : ids1.Nodup)
    (hfresh : ∀ i ∈ ids1, i ∉ txIds s)
    (hlen : (csvLines csv).length ≤ ids1.length) :
    (importCsv s cid csv ids1).1.status = 200 ∧
    (importCsv (importCsv s cid csv ids1).2 cid csv ids2).1.status = 200 ∧
    (importCsv (importCsv s cid csv ids1).2 cid csv ids2).1.added = 0 ∧
    (importCsv (importCsv s cid csv ids1).2 cid csv ids2).1.skipped =
      (importCsv s cid csv ids1).1.added +
        (importCsv s cid csv ids1).1.skipped ∧
    (importCsv (importCsv s cid csv ids1).2 cid csv ids2).1.errors =
      (importCsv s cid csv ids1).1.errors ∧
    (importCsv (importCsv s cid csv ids1).2 cid csv ids2).2 =
      (importCsv s cid csv ids1).2 := by
  have hnf : ¬(c.finalized = true) := by simp [hf]
  obtain ⟨ic, _, ifp, icnt, ierr⟩ :=
    importFold_first cid (csvLines csv)
      { store := s, added := 0, skipped := 0, errors := 0, ids := ids1 }
      hnd hfresh hlen
  set σf := (csvLines csv).foldl (importLine cid)
    { store := s, added := 0, skipped := 0, errors := 0, ids := ids1 }
    with hσf
  have e1 : importCsv s cid csv ids1 =
      ({ status := 200, added := σf.added, skipped := σf.skipped,
         errors := σf.errors }, σf.store) := by
    unfold importCsv
    simp only [hc]
    rw [if_neg hnf]
  have hc2 : getCycle σf.store cid = some c := by
    rw [getCycle_congr σf.store s cid ic, hc]
  have e2 : importCsv σf.store cid csv ids2 =
      ({ status := 200, added := 0, skipped := 0 + countOk (csvLines csv),
         errors := 0 + countErr (csvLines csv) }, σf.store) := by
    unfold importCsv
    simp only [hc2]
    rw [if_neg hnf]
    rw [importFold_second cid (csvLines csv)
      { store := σf.store, added := 0, skipped := 0, errors := 0,
        ids := ids2 } (fun l hl r hr hp => ifp l hl r hr hp)]
  rw [e1]
  rw [e2]
  have icnt' : σf.added + σf.skipped = countOk (csvLines csv) := by
    simpa using icnt
  have ierr' : σf.errors = countErr (csvLines csv) := by
    simpa using ierr
  refine ⟨rfl, rfl, rfl, ?_, ?_, rfl⟩
  · simp [icnt']
  · simp [ierr']

/-- Witness for the amended C3 on the duplicate-row CSV: the first call
adds 1 and skips 1; the second call adds 0 and skips 2 = 1 + 1. -/
theorem C3_witness :
    (importCsv openStore "c" dupCsv ["u1", "u2"]).1.status = 200 ∧
    (importCsv (importCsv openStore "c" dupCsv ["u1", "u2"]).2 "c" dupCsv
      ["u3", "u4"]).1.status = 200 ∧
    (importCsv (importCsv openStore "c" dupCsv ["u1", "u2"]).2 "c" dupCsv
      ["u3", "u4"]).1.added = 0 ∧
    (importCsv (importCsv openStore "c" dupCsv ["u1", "u2"]).2 "c" dupCsv
      ["u3", "u4"]).1.skipped =
      (importCsv openStore "c" dupCsv ["u1", "u2"]).1.added +
        (importCsv openStore "c" dupCsv ["u1", "u2"]).1.skipped ∧
    (importCsv (importCsv openStore "c" dupCsv ["u1", "u2"]).2 "c" dupCsv
      ["u3", "u4"]).1.errors =
      (importCsv openStore "c" dupCsv ["u1", "u2"]).1.errors ∧
    (importCsv (importCsv openStore "c" dupCsv ["u1", "u2"]).2 "c" dupCsv
      ["u3", "u4"]).2 = (importCsv openStore "c" dupCsv ["u1", "u2"]).2 :=
  C3_reimport_counts openStore "c" openCycle dupCsv ["u1", "u2"]
    ["u3", "u4"] (by decide) (by decide) (by decide) (by decide) (by decide)

/-- Claim C5, amended.  A line with a valid date, a non-empty merchant, an
empty debit column and a populated credit column is rejected by
parseCibcRow, and importing a CSV consisting of exactly that line against
an open cycle leaves the store unchanged and reports added 0, skipped 0,
errors 1: the credit row is skipped in the sense that it is never
imported, but it IS counted by the errors counter. -/
theorem C5_credit_row_counted_as_error (s : Store) (cid : String) (c : Cycle)
    (line : String) (d m deb cr : String) (rest : List String)
    (ids : List String) (hc : getCycle s cid = some c)
    (hf : c.finalized = false) (hl : csvLines line = [line])
    (hsd : startsWithDate line = true)
    (hp : parseCsvLine line = d :: m :: deb :: cr :: rest)
    (hdate : isIsoDate (jsTrim d) = true) (hm : jsTrim m ≠ "")
    (hdeb : jsTrim deb = "") (hcr : jsTrim cr ≠ "") :
    parseCibcRow line = none ∧
    importCsv s cid line ids =
      ({ status := 200, added := 0, skipped := 0, errors := 1 }, s) := by
  have hpn : parseCibcRow line = none := by
    unfold parseCibcRow
    rw [hp]
    simp [hdate, hm, hdeb]
  refine ⟨hpn, ?_⟩
  unfold importCsv
  simp only [hc]
  rw [if_neg (by simp [hf]), hl, List.foldl_cons,
    importLine_of_err cid _ line hsd hpn]
  rfl

/-- Witness for the amended C5 on the concrete credit row. -/
theorem C5_witness :
    parseCibcRow creditLine = none ∧
    importCsv openStore "c" creditLine [] =
      ({ status := 200, added := 0, skipped := 0, errors := 1 },
        openStore) :=
  C5_credit_row_counted_as_error openStore "c" openCycle creditLine
    "2025-01-02" "STORE" "" "12.50" ["card"] [] (by decide) (by decide)
    (by decide) (by decide) (by decide) (by decide) (by decide) (by decide)
    (by decide)

end GrocSplit
